import Mathlib

/-!
Shallow embedding of the Pharmastic bot (src/app/main.py): the conversation
engine `PharmacyBot.process_message`, the order-confirmation builder
`process_order_confirmation`, and the AI adapter functions
`AIEngine.translate_response` / `AIEngine.extract_order_details`.

Conventions of the embedding:
* Python dict values appearing in the session data bag and in persisted
  documents are modelled by `PyVal` (string / int / None).
* `dict.get(k)` is `bagGet` (absent key yields None), `dict.get(k, d)` is
  `bagGetD` (absent key yields `d`; a key stored with value None yields None,
  as in Python).
* The MongoDB collections are modelled as in-memory lists; `find_one` returns
  the first match, `insert_one` appends, `update_one` (upsert=False) edits the
  first match, and the session upsert mirrors
  `update_one({"phone": ...}, {"$set": ...}, upsert=True)`: when no `data` is
  passed, only the `step` field is replaced and the old bag survives.
* The two external LLM chains are an oracle `LLMService` whose calls return
  `Except`; `none` models a missing GROQ_API_KEY (`self.llm = None`).
* `random.randint(50, 500)` and `random.randint(1000, 9999)` are modelled by
  the parameters `price` and `oid` supplied to a turn; theorems that rely on
  the range of `randint` take the bounds as hypotheses.
* Exceptions that the Python code does not catch are modelled by the turn
  result being `Except.error`; database writes already performed before the
  raise are kept, as they are in the real system.
-/

namespace Pharmastic

/-- A Python value as it occurs in session bags and persisted documents. -/
inductive PyVal where
  | vNone
  | vStr (s : String)
  | vInt (n : Int)
  deriving DecidableEq, Repr

/-- A Python dict with string keys, in insertion order. -/
abbrev Bag := List (String × PyVal)

/-- First binding of a key, if any. -/
def bagLookup : Bag → String → Option PyVal
  | [], _ => none
  | (k', v) :: rest, k => if k' = k then some v else bagLookup rest k

/-- Python `d.get(k)`: absent key gives `None`. -/
def bagGet (b : Bag) (k : String) : PyVal := (bagLookup b k).getD .vNone

/-- Python `d.get(k, default)`: the default fires only when the key is absent. -/
def bagGetD (b : Bag) (k : String) (d : PyVal) : PyVal := (bagLookup b k).getD d

/-- Python `str(...)` / f-string rendering of a value. -/
def pyRender : PyVal → String
  | .vNone => "None"
  | .vStr s => s
  | .vInt n => toString n

/-- Python truthiness of a value (`None`, `""` and `0` are falsy). -/
def pyTruthy : PyVal → Bool
  | .vNone => false
  | .vStr s => s ≠ ""
  | .vInt n => n ≠ 0

/-- Python truthiness of an optional string. -/
def optStrTruthy : Option String → Bool
  | none => false
  | some s => s ≠ ""

/-- Python truthiness of an optional int. -/
def optIntTruthy : Option Int → Bool
  | none => false
  | some n => n ≠ 0

/-- View an optional string as a Python value. -/
def pyOfOptStr : Option String → PyVal
  | none => .vNone
  | some s => .vStr s

/-- `listStartsWith l p` iff `p` is an initial segment of `l`. -/
def listStartsWith : List Char → List Char → Bool
  | _, [] => true
  | [], _ :: _ => false
  | a :: as, b :: bs => (a = b) && listStartsWith as bs

/-- Whether `sub` occurs contiguously inside `l`. -/
def listHasSub : List Char → List Char → Bool
  | [], sub => sub.isEmpty
  | a :: as, sub => listStartsWith (a :: as) sub || listHasSub as sub

/-- Python `sub in s` on strings. -/
def strHasSub (s sub : String) : Bool := listHasSub s.toList sub.toList

/-- Python `s.lower()` (ASCII case mapping suffices for the fixed tokens the
engine compares against). -/
def strLower (s : String) : String := String.mk (s.data.map Char.toLower)

/-- Python `s.strip()`: drop leading and trailing whitespace. -/
def strTrim (s : String) : String :=
  String.mk (((s.data.dropWhile Char.isWhitespace).reverse.dropWhile Char.isWhitespace).reverse)

/-- The digit characters of a message, Python `filter(str.isdigit, message)`. -/
def digitsOf (s : String) : List Char := s.toList.filter Char.isDigit

/-- Decimal value of a digit string, Python `int("".join(digits))`. -/
def digitsToNat (l : List Char) : Nat := l.foldl (fun acc c => acc * 10 + (c.toNat - 48)) 0

/-! ## The extraction result and the LLM oracle -/

/-- The dict returned by `AIEngine.extract_order_details` (and the JSON shape
the extraction prompt demands).  A field holding `none` models an absent key:
the code only reads these keys through `dict.get`. -/
structure ExtractionResult where
  intent : Option String := none
  medicine : Option String := none
  quantity : Option Int := none
  unit : Option String := none
  dosage_frequency : Option String := none
  prescription_required : Option String := none
  language : Option String := none
  deriving DecidableEq, Repr

/-- Oracle for the two LangChain chains built on the live Groq model.
`extractJson` is `(prompt | llm | parser).ainvoke`, `translateText` is
`(prompt | llm).ainvoke` followed by `.content`; an `Except.error` models the
call raising. -/
structure LLMService where
  extractJson : String → Except String ExtractionResult
  translateText : String → PyVal → Except String String

/-- `AIEngine.translate_response` (src/app/main.py lines 98-114): passthrough
when the llm is absent or the target language is `"english"`, otherwise the
raw chain call — the code has no try/except here, so a failing call raises. -/
def translate_response (eng : Option LLMService) (text : String) (target : PyVal) :
    Except String String :=
  match eng with
  | none => .ok text
  | some svc => if target = .vStr "english" then .ok text else svc.translateText text target

/-- The dict built in the `except` branch of `extract_order_details`
(src/app/main.py lines 163-172). -/
def fallbackExtraction : ExtractionResult :=
  { intent := some "other", medicine := none, quantity := none, unit := none,
    dosage_frequency := some "Once daily", prescription_required := some "Yes",
    language := some "english" }

/-- `AIEngine.extract_order_details` (src/app/main.py lines 116-172).  With no
llm configured it returns `{"medicine": text, "quantity": 1, "language":
"english"}`; with a live llm it returns the chain result, or the deterministic
fallback when the chain raises.  It never raises itself. -/
def extract_order_details (eng : Option LLMService) (text : String) : ExtractionResult :=
  match eng with
  | none => { medicine := some text, quantity := some 1, language := some "english" }
  | some svc =>
    match svc.extractJson text with
    | .ok r => r
    | .error _ => fallbackExtraction

/-! ## Database documents and collections -/

/-- One entry of `CustomerProfile.medication_history` as the engine writes it:
`{ count, last_ordered, dosage }`. -/
structure HistEntry where
  count : Int
  last_ordered : Option Nat
  dosage : PyVal
  deriving DecidableEq, Repr

/-- A document of the `customers` collection as the engine creates it. -/
structure Customer where
  phone : String
  name : PyVal
  gender : PyVal
  age : Int
  language : String
  medication_history : List (String × HistEntry)
  registered_at : Nat
  deriving DecidableEq, Repr

/-- A document of the legacy `patients` collection (read-only for this code);
only the fields the confirmation branch reads. -/
structure PatientRec where
  name : PyVal
  age : PyVal
  gender : PyVal
  deriving DecidableEq, Repr

/-- A line item of an order document. -/
structure ItemDoc where
  medicine : PyVal
  quantity : PyVal
  unit : PyVal
  price : PyVal
  dosage_frequency : PyVal
  prescription_required : PyVal
  deriving DecidableEq, Repr

/-- The `new_order` dict inserted into the `orders` collection
(src/app/main.py lines 401-421). -/
structure OrderDoc where
  order_id : String
  customer_id : String
  customer_name : PyVal
  customer_age : PyVal
  customer_gender : PyVal
  items : List ItemDoc
  total_price : PyVal
  status : String
  review_status : String
  order_date : Nat
  product_name : PyVal
  quantity_str : String
  dosage_frequency : PyVal
  prescription_required : PyVal
  deriving DecidableEq, Repr

/-- The pydantic `Order` model (src/app/main.py line 75) declares
`status: str = "Pending"`; the engine never uses this default when inserting. -/
def orderStatusDefault : String := "Pending"

/-- The pydantic `Order` model (src/app/main.py line 76) declares
`review_status: str = "Pending"`. -/
def orderReviewStatusDefault : String := "Pending"

/-- A `session_state` document: current step plus the per-step data bag
(absent `data` field and empty dict are both the empty bag, matching
`state_doc.get("data", {})`). -/
structure SessionRecord where
  step : String
  data : Bag
  deriving DecidableEq, Repr

/-- The MongoDB database as the engine sees it. -/
structure DB where
  sessions : List (String × SessionRecord)
  customers : List Customer
  patients : List (String × PatientRec)
  orders : List OrderDoc
  deriving DecidableEq, Repr

/-- `find_one` on `session_state` by phone: first match. -/
def sessionLookup : List (String × SessionRecord) → String → Option SessionRecord
  | [], _ => none
  | (p, r) :: rest, phone => if p = phone then some r else sessionLookup rest phone

/-- `find_one` on `customers` by phone: first match. -/
def findCustomer : List Customer → String → Option Customer
  | [], _ => none
  | c :: rest, phone => if c.phone = phone then some c else findCustomer rest phone

/-- `find_one` on `patients` by phone: first match. -/
def findPatient : List (String × PatientRec) → String → Option PatientRec
  | [], _ => none
  | (p, r) :: rest, phone => if p = phone then some r else findPatient rest phone

/-- `PharmacyBot.get_state` (src/app/main.py lines 181-187). -/
def get_state (db : DB) (phone : String) : SessionRecord :=
  match sessionLookup db.sessions phone with
  | some r => r
  | none => { step := "check_user", data := [] }

/-- The session upsert of `PharmacyBot.update_state`: `$set` replaces `step`
always and `data` only when a bag was passed (`if data:`), so a call without a
bag keeps the previous bag; a fresh upsert without a bag creates a record with
no `data` field, read back as the empty bag. -/
def upsertSession : List (String × SessionRecord) → String → String → Option Bag →
    List (String × SessionRecord)
  | [], phone, step, data => [(phone, { step := step, data := data.getD [] })]
  | (p, r) :: rest, phone, step, data =>
    if p = phone then (p, { step := step, data := data.getD r.data }) :: rest
    else (p, r) :: upsertSession rest phone step data

/-- `PharmacyBot.update_state` (src/app/main.py lines 189-197). -/
def update_state (db : DB) (phone step : String) (data : Option Bag) : DB :=
  { db with sessions := upsertSession db.sessions phone step data }

/-- `db["customers"].update_one({"phone": phone}, {"$set": {"language": lang}})`:
edit the first match, no upsert. -/
def setCustomerLang : List Customer → String → String → List Customer
  | [], _, _ => []
  | c :: rest, phone, lang =>
    if c.phone = phone then { c with language := lang } :: rest
    else c :: setCustomerLang rest phone lang

/-- First entry of a history map for a key. -/
def histLookup : List (String × HistEntry) → String → Option HistEntry
  | [], _ => none
  | (k', e) :: rest, k => if k' = k then some e else histLookup rest k

/-- The count recorded for a key (0 when the key is absent). -/
def histCount (h : List (String × HistEntry)) (k : String) : Int :=
  ((histLookup h k).map (·.count)).getD 0

/-- The `$inc`/`$set` pair on `medication_history.<key>` (src/app/main.py
lines 434-446): `$inc` creates the path with count 1 when absent, otherwise
adds 1; `$set` overwrites last_ordered and dosage. -/
def histInc : List (String × HistEntry) → String → Nat → PyVal →
    List (String × HistEntry)
  | [], k, now, dos => [(k, { count := 1, last_ordered := some now, dosage := dos })]
  | (k', e) :: rest, k, now, dos =>
    if k' = k then (k', { count := e.count + 1, last_ordered := some now, dosage := dos }) :: rest
    else (k', e) :: histInc rest k now dos

/-- The medication-history `update_one` with `upsert=False`: edit the first
matching customer, no-op when none matches. -/
def updateCustomerHist : List Customer → String → String → Nat → PyVal → List Customer
  | [], _, _, _, _ => []
  | c :: rest, phone, key, now, dos =>
    if c.phone = phone then
      { c with medication_history := histInc c.medication_history key now dos } :: rest
    else c :: updateCustomerHist rest phone key now dos

/-! ## Replies and message texts -/

/-- A button of an outbound reply, `{"id": ..., "title": ...}`. -/
structure Button where
  id : String
  title : String
  deriving DecidableEq, Repr

/-- The dict a turn returns: `{"text": ..., "buttons": [...]}`. -/
structure Reply where
  text : String
  buttons : List Button
  deriving DecidableEq, Repr

/-- Outcome of one turn: the reply (or the uncaught exception) together with
the database as left behind — writes performed before a raise are kept. -/
structure Turn where
  res : Except String Reply
  db : DB

/-- A normally returned reply. -/
def okTurn (text : String) (buttons : List Button) (db : DB) : Turn :=
  { res := .ok { text := text, buttons := buttons }, db := db }

/-- A turn ending in an uncaught exception. -/
def errTurn (e : String) (db : DB) : Turn :=
  { res := .error e, db := db }

def welcomeText : String :=
  "👋 Welcome to Pharmastic!\n\nI see you are a new customer. Let's set up your profile.\n\n*What is your Name?*"

def askAgeText : String := "Got it. \n\n*Please type your Age (e.g., 25):*"

def invalidAgeText : String := "Please enter a valid number for age."

def greetingReplyText : String :=
  "👋 Hello! \n\nI am *Pharmastic AI*.\nTell me which medicine you need, or check your past orders."

def cancelText : String := "🚫 Order Cancelled."

def noOrdersText : String := "You have no past orders."

def genericFallbackText : String := "How can I help you? Type a medicine name to order."

def niceToMeetText (name : String) : String :=
  "Nice to meet you, " ++ name ++ "! \n\n*Select your Gender:*"

def profileSavedText (name : PyVal) : String :=
  "✅ Profile Saved!\n\nWelcome " ++ pyRender name ++
    ".\n\n*Which medicine do you want to order today?* \n(Type the medicine name)"

def askQtyText (medicine : String) : String :=
  "How many *" ++ medicine ++ "* do you want? Select or type."

/-- The `msg_english` f-string of `process_order_confirmation`
(src/app/main.py lines 535-542). -/
def confirmPromptText (medicine : PyVal) (qty : Int) (unit_str : PyVal) (total : Int)
    (dosage : PyVal) : String :=
  "📋 *Order Confirmation*\n        \nMedicine: " ++ pyRender medicine ++
    "\nQuantity: " ++ toString qty ++ " " ++ pyRender unit_str ++
    "\nTotal Amount: ₹" ++ toString total ++
    "\nDosage: " ++ pyRender dosage ++
    "\n\n*Do you want to confirm this order?*"

/-- The order-confirmed `base_msg` (src/app/main.py line 451); the medicine is
read with `order_data['medicine']`, so the caller must have the key. -/
def orderConfirmedText (medicine : PyVal) : String :=
  "✅ *Order Confirmed!*\n\nYour order for " ++ pyRender medicine ++
    " is in *Review*. We will notify you later once it is processed.\n\n*Do you want anything more?*"

/-! ## The conversation engine -/

/-- `"confirm" in msg_lower or "yes" in msg_lower or "ok" in msg_lower`
(src/app/main.py lines 370-371): substring containment on the lowercased
message. -/
def isAffirmative (message : String) : Bool :=
  strHasSub (strLower message) "confirm" || strHasSub (strLower message) "yes" ||
    strHasSub (strLower message) "ok"

/-- The keyword test of the fallback section (src/app/main.py lines 474-478). -/
def hasHistoryKeyword (message : String) : Bool :=
  strHasSub (strLower message) "my order" || strHasSub (strLower message) "status" ||
    strHasSub (strLower message) "check order"

/-- Descending insertion by `order_date`. -/
def insertByDateDesc (o : OrderDoc) : List OrderDoc → List OrderDoc
  | [] => [o]
  | x :: xs => if o.order_date ≤ x.order_date then x :: insertByDateDesc o xs
               else o :: x :: xs

/-- Sort newest first, `sort("order_date", -1)`. -/
def sortByDateDesc : List OrderDoc → List OrderDoc
  | [] => []
  | x :: xs => insertByDateDesc x (sortByDateDesc xs)

/-- `db["orders"].find({"customer_id": phone}).sort("order_date", -1).limit(5)`
(src/app/main.py lines 480-486). -/
def recentOrders (db : DB) (phone : String) : List OrderDoc :=
  (sortByDateDesc (db.orders.filter (fun o => o.customer_id = phone))).take 5

/-- `item_name` of one summary line (src/app/main.py lines 497-501):
`o.get("product_name") or o.get("medicine_name") or (items[0]["medicine"] if
items else "Unknown")`; documents written by this engine never carry a
`medicine_name` field, so that link of the `or` chain is always None. -/
def orderItemName (o : OrderDoc) : String :=
  if pyTruthy o.product_name then pyRender o.product_name
  else match o.items with
       | [] => "Unknown"
       | it :: _ => pyRender it.medicine

/-- One line of the recent-orders summary. -/
def orderSummaryLine (o : OrderDoc) : String :=
  "• " ++ orderItemName o ++ ": *" ++ o.review_status ++ "*\n"

/-- The full summary text (src/app/main.py lines 494-503). -/
def ordersSummaryText (orders : List OrderDoc) : String :=
  "*Your Recent Orders:*\n" ++ String.join (orders.map orderSummaryLine)

/-- `med_name.replace(".", "").replace("$", "")` (src/app/main.py line 429). -/
def sanitizeKey (s : String) : String :=
  String.mk (s.data.filter (fun c => c != '.' && c != '$'))

/-- `PharmacyBot.process_order_confirmation` (src/app/main.py lines 515-551).
`price` is the draw of `random.randint(50, 500)`.  The session is moved to
`awaiting_confirmation` with the full pending-order bag before the
translation call, so a raising translation still leaves the new state. -/
def process_order_confirmation (eng : Option LLMService) (db : DB) (phone : String)
    (medicine : PyVal) (qty : Int) (unit : PyVal) (dosage presc lang : PyVal)
    (price : Int) : Turn :=
  let unit_price : Int := price
  let total_price : Int := unit_price * qty
  let unit_str : PyVal := if pyTruthy unit then unit else .vStr "units"
  let order_data : Bag :=
    [("medicine", medicine), ("quantity", .vInt qty), ("unit", unit_str),
     ("unit_price", .vInt unit_price), ("total", .vInt total_price),
     ("dosage_frequency", dosage), ("prescription_required", presc), ("lang", lang)]
  let db1 := update_state db phone "awaiting_confirmation" (some order_data)
  match translate_response eng (confirmPromptText medicine qty unit_str total_price dosage) lang with
  | .error e => errTurn e db1
  | .ok t =>
    okTurn t [{ id := "yes", title := "✅ Confirm Order" },
              { id := "no", title := "❌ Cancel" }] db1

/-- Outcome of the main-menu block: either a returned turn, or the Python
control flow falling out of the block (carrying the language update already
written to the customers collection). -/
inductive MMOut where
  | done (t : Turn)
  | fallthrough (db : DB)

/-- The main-menu / ordering block (src/app/main.py lines 274-340), entered
when `step == "main_menu"` or a known customer is at `check_user`. -/
def mainMenuBlock (eng : Option LLMService) (db : DB) (phone message : String)
    (patientExists : Bool) (price : Int) : MMOut :=
  let extraction := extract_order_details eng message
  let intent := extraction.intent.getD "other"
  let medicine := extraction.medicine
  let qty := extraction.quantity
  let detected_lang := extraction.language.getD "english"
  let db1 := if patientExists then
               { db with customers := setCustomerLang db.customers phone detected_lang }
             else db
  if intent = "greeting" then
    .done (match translate_response eng greetingReplyText (.vStr detected_lang) with
      | .error e => errTurn e db1
      | .ok t => okTurn t [{ id := "my_orders", title := "My Orders" }] db1)
  else
    match medicine with
    | none => .fallthrough db1
    | some m =>
      if m = "" then .fallthrough db1
      else if optIntTruthy qty then
        match qty with
        | some q =>
          .done (process_order_confirmation eng db1 phone (.vStr m) q
            (pyOfOptStr extraction.unit) (pyOfOptStr extraction.dosage_frequency)
            (pyOfOptStr extraction.prescription_required) (.vStr detected_lang) price)
        | none => .fallthrough db1
      else
        let bag : Bag :=
          [("medicine", .vStr m), ("lang", .vStr detected_lang),
           ("dosage", pyOfOptStr extraction.dosage_frequency),
           ("presc", pyOfOptStr extraction.prescription_required)]
        let db2 := update_state db1 phone "awaiting_quantity" (some bag)
        .done (match translate_response eng (askQtyText m) (.vStr detected_lang) with
          | .error e => errTurn e db2
          | .ok t =>
            okTurn t [{ id := "1 strip", title := "1 Strip" },
                      { id := "2 strips", title := "2 Strips" },
                      { id := "1 box", title := "1 Box" }] db2)

/-- The awaiting-quantity block (src/app/main.py lines 342-362): extraction is
re-run on the reply; a falsy quantity defaults to 1, a falsy unit to "units". -/
def awaitingQuantityBlock (eng : Option LLMService) (db : DB) (phone message : String)
    (prev_data : Bag) (price : Int) : Turn :=
  let extraction := extract_order_details eng message
  let qty : Int := match extraction.quantity with
                   | some n => if n ≠ 0 then n else 1
                   | none => 1
  let unit : PyVal := if optStrTruthy extraction.unit then pyOfOptStr extraction.unit
                      else .vStr "units"
  let medicine := bagGet prev_data "medicine"
  let detected_lang := bagGetD prev_data "lang" (.vStr "english")
  let dosage := bagGetD prev_data "dosage" (.vStr "Once daily")
  let presc := bagGetD prev_data "presc" (.vStr "Yes")
  process_order_confirmation eng db phone medicine qty unit dosage presc detected_lang price

/-- The `p_data` resolution of the confirmation branch (src/app/main.py lines
374-384): customers first, then legacy patients, then the Guest placeholder. -/
def resolvePData (db : DB) (phone : String) : PatientRec :=
  match findCustomer db.customers phone with
  | some c => { name := c.name, age := .vInt c.age, gender := c.gender }
  | none =>
    match findPatient db.patients phone with
    | some p => p
    | none => { name := .vStr "Guest", age := .vInt 0, gender := .vStr "Unknown" }

/-- The `new_order` dict of the confirmation branch (src/app/main.py lines
386-421), with `oid` the draw of `random.randint(1000, 9999)`. -/
def confirmOrderDoc (db : DB) (phone : String) (order_data : Bag) (oid : Int)
    (now : Nat) : OrderDoc :=
  let p := resolvePData db phone
  { order_id := "ORD-" ++ toString oid,
    customer_id := phone,
    customer_name := p.name,
    customer_age := p.age,
    customer_gender := p.gender,
    items := [{ medicine := bagGet order_data "medicine",
                quantity := bagGet order_data "quantity",
                unit := bagGet order_data "unit",
                price := bagGet order_data "unit_price",
                dosage_frequency := bagGetD order_data "dosage_frequency" (.vStr "Once daily"),
                prescription_required := bagGetD order_data "prescription_required" (.vStr "Yes") }],
    total_price := bagGet order_data "total",
    status := "Confirmed",
    review_status := "Under Review",
    order_date := now,
    product_name := bagGet order_data "medicine",
    quantity_str := pyRender (bagGet order_data "quantity") ++ " " ++
      pyRender (bagGetD order_data "unit" (.vStr "")),
    dosage_frequency := bagGetD order_data "dosage_frequency" (.vStr "Once daily"),
    prescription_required := bagGetD order_data "prescription_required" (.vStr "Yes") }

/-- The awaiting-confirmation block (src/app/main.py lines 364-468).  On an
affirmative message the order is inserted, then the history update is
attempted inside try/except (`med_name.replace` raises unless the medicine is
a string, and the customers update is a no-op for guests), then the success
message is built — `order_data['medicine']` raises KeyError when the bag lacks
the key — translated, and only then is the session moved to `main_menu`. -/
def confirmationBlock (eng : Option LLMService) (db : DB) (phone message : String)
    (order_data : Bag) (oid : Int) (now : Nat) : Turn :=
  let detected_lang := bagGetD order_data "lang" (.vStr "english")
  if isAffirmative message then
    let new_order := confirmOrderDoc db phone order_data oid now
    let db1 := { db with orders := db.orders ++ [new_order] }
    let db2 := match bagGet order_data "medicine" with
      | .vStr s =>
        { db1 with customers := (updateCustomerHist db1.customers phone (sanitizeKey s)
                                  now (bagGet order_data "dosage_frequency")) }
      | _ => db1
    match bagLookup order_data "medicine" with
    | none => errTurn "KeyError: medicine" db2
    | some mv =>
      match translate_response eng (orderConfirmedText mv) detected_lang with
      | .error e => errTurn e db2
      | .ok t =>
        let db3 := update_state db2 phone "main_menu" none
        okTurn t [{ id := "new", title := "Buy Medicine" },
                  { id := "my_orders", title := "My Orders" }] db3
  else
    match translate_response eng cancelText detected_lang with
    | .error e => errTurn e db
    | .ok t =>
      let db1 := update_state db phone "main_menu" none
      okTurn t [] db1

/-- The fallback section (src/app/main.py lines 470-513): reset to main_menu,
then either the recent-orders summary (keyword match) or the generic prompt. -/
def fallbackBlock (db : DB) (phone message : String) : Turn :=
  let db1 := update_state db phone "main_menu" none
  if hasHistoryKeyword message then
    let orders := recentOrders db1 phone
    if orders.isEmpty then
      okTurn noOrdersText [{ id := "new", title := "Order Medicine" }] db1
    else
      okTurn (ordersSummaryText orders) [{ id := "new", title := "Order Medicine" }] db1
  else
    okTurn genericFallbackText [{ id := "my_orders", title := "My Orders" }] db1

/-- `PharmacyBot.process_message` (src/app/main.py lines 199-513).  `price`
and `oid` are the draws of the two `random.randint` calls a turn can make;
`now` is `datetime.utcnow()`. -/
def process_message (eng : Option LLMService) (db : DB) (phone message : String)
    (price oid : Int) (now : Nat) : Turn :=
  let st := get_state db phone
  let step := st.step
  let temp_data := st.data
  let patient := findCustomer db.customers phone
  if patient.isNone ∧ step = "check_user" then
    let db1 := update_state db phone "awaiting_name" none
    okTurn welcomeText [] db1
  else if step = "awaiting_name" then
    let name := strTrim message
    let db1 := update_state db phone "awaiting_gender" (some [("name", .vStr name)])
    okTurn (niceToMeetText name)
      [{ id := "Male", title := "Male" }, { id := "Female", title := "Female" },
       { id := "Other", title := "Other" }] db1
  else if step = "awaiting_gender" then
    let gender := strTrim message
    let prev_name := bagGet temp_data "name"
    let db1 := update_state db phone "awaiting_age"
      (some [("name", prev_name), ("gender", .vStr gender)])
    okTurn askAgeText [] db1
  else if step = "awaiting_age" then
    if digitsOf message = [] then
      okTurn invalidAgeText [] db
    else
      let age : Int := (digitsToNat (digitsOf message) : Nat)
      let new_customer : Customer :=
        { phone := phone, name := bagGet temp_data "name",
          gender := bagGet temp_data "gender", age := age, language := "english",
          medication_history := [], registered_at := now }
      let db1 := { db with customers := db.customers ++ [new_customer] }
      let db2 := update_state db1 phone "main_menu" none
      okTurn (profileSavedText new_customer.name) [] db2
  else if step = "main_menu" ∨ (patient.isSome ∧ step = "check_user") then
    match mainMenuBlock eng db phone message patient.isSome price with
    | .done t => t
    | .fallthrough db1 => fallbackBlock db1 phone message
  else if step = "awaiting_quantity" then
    awaitingQuantityBlock eng db phone message temp_data price
  else if step = "awaiting_confirmation" then
    confirmationBlock eng db phone message temp_data oid now
  else
    fallbackBlock db phone message

/-- The reply text of a turn, when it did not raise. -/
def replyText (t : Turn) : Option String :=
  match t.res with
  | .ok r => some r.text
  | .error _ => none

/-- The step the session is left in after a turn. -/
def stepAfter (t : Turn) (phone : String) : String := (get_state t.db phone).step

/-! ## Store lemmas -/

theorem sessionLookup_upsertSession_self (l : List (String × SessionRecord))
    (phone step : String) (data : Option Bag) :
    sessionLookup (upsertSession l phone step data) phone =
      some { step := step,
             data := data.getD (((sessionLookup l phone).map SessionRecord.data).getD []) } := by
  induction l with
  | nil => simp [upsertSession, sessionLookup]
  | cons hd tl ih =>
    obtain ⟨p, r⟩ := hd
    by_cases h : p = phone
    · subst h; simp [upsertSession, sessionLookup]
    · simp [upsertSession, sessionLookup, h, ih]

theorem sessionLookup_upsertSession_other (l : List (String × SessionRecord))
    (phone step v : String) (data : Option Bag) (h : v ≠ phone) :
    sessionLookup (upsertSession l phone step data) v = sessionLookup l v := by
  induction l with
  | nil => simp [upsertSession, sessionLookup, Ne.symm h]
  | cons hd tl ih =>
    obtain ⟨p, r⟩ := hd
    by_cases hp : p = phone
    · subst hp
      simp [upsertSession, sessionLookup, Ne.symm h]
    · simp only [upsertSession, if_neg hp, sessionLookup]
      by_cases hv : p = v
      · simp [hv]
      · simp [hv, ih]

theorem get_state_update_some (db : DB) (phone st : String) (bag : Bag) :
    get_state (update_state db phone st (some bag)) phone = { step := st, data := bag } := by
  simp [get_state, update_state, sessionLookup_upsertSession_self]

theorem get_state_update_none (db : DB) (phone st : String) :
    get_state (update_state db phone st none) phone =
      { step := st, data := (get_state db phone).data } := by
  simp only [get_state, update_state, sessionLookup_upsertSession_self]
  cases h : sessionLookup db.sessions phone <;> simp [h]

theorem get_state_update_other (db : DB) (phone st v : String) (d : Option Bag)
    (h : v ≠ phone) : get_state (update_state db phone st d) v = get_state db v := by
  simp [get_state, update_state, sessionLookup_upsertSession_other _ _ _ _ _ h]

theorem update_state_orders (db : DB) (phone st : String) (d : Option Bag) :
    (update_state db phone st d).orders = db.orders := rfl

theorem update_state_customers (db : DB) (phone st : String) (d : Option Bag) :
    (update_state db phone st d).customers = db.customers := rfl

/-! ## Concrete services and databases used by counterexamples and witnesses -/

/-- A live service whose chain calls always raise. -/
def failingSvc : LLMService :=
  { extractJson := fun _ => .error "boom", translateText := fun _ _ => .error "down" }

/-- A deterministic mocked service returning a HistoryQuery intent for every
message and translating by passthrough. -/
def historySvc : LLMService :=
  { extractJson := fun _ => .ok { intent := some "history", language := some "english" },
    translateText := fun t _ => .ok t }

/-! ## C1 — extraction fallback -/

/-- C1 (counterexample): with the extraction service disabled (no API key,
`self.llm = None`), `extract_order_details "paracetamol"` does not return the
claimed fallback (intent=Other, medicine=null, quantity=null): it returns the
raw text as the medicine and quantity 1, with no intent key at all. -/
theorem extract_disabled_returns_raw_text :
    extract_order_details none "paracetamol" ≠ fallbackExtraction ∧
    (extract_order_details none "paracetamol").medicine = some "paracetamol" ∧
    (extract_order_details none "paracetamol").quantity = some 1 ∧
    (extract_order_details none "paracetamol").intent = none := by
  refine ⟨by decide, rfl, rfl, rfl⟩

/-- C1 (amended): `extract_order_details` never raises (it is total on every
input and service); when the live service call fails it returns the
deterministic fallback (intent "other", medicine null, quantity null, language
"english"); when the service is disabled it instead returns the raw text as
the medicine with quantity 1 and language "english". -/
theorem extract_never_raises_fallback_shapes :
    (∀ text : String, extract_order_details none text =
        { medicine := some text, quantity := some 1, language := some "english" }) ∧
    (∀ (svc : LLMService) (text e : String), svc.extractJson text = .error e →
        extract_order_details (some svc) text = fallbackExtraction) := by
  refine ⟨fun _ => rfl, fun svc text e h => ?_⟩
  simp [extract_order_details, h]

/-- Witness for C1's amended theorem at a concretely failing service. -/
theorem extract_never_raises_fallback_shapes_witness :
    extract_order_details (some failingSvc) "paracetamol" = fallbackExtraction :=
  extract_never_raises_fallback_shapes.2 failingSvc "paracetamol" "boom" rfl

/-! ## C6 — translation passthrough -/

/-- C6 (counterexample): `translate_response` has no try/except: with a live
service whose call raises and target language "hindi", the error propagates to
the caller instead of the input text being returned. -/
theorem translate_error_propagates :
    translate_response (some failingSvc) "Hello" (.vStr "hindi") = .error "down" ∧
    translate_response (some failingSvc) "Hello" (.vStr "hindi") ≠ .ok "Hello" :=
  ⟨rfl, fun h => Except.noConfusion h⟩

/-- C6 (amended): `translate_response` returns its input unchanged when the
llm is disabled or the target language is "english"; otherwise it returns
whatever the translation chain returns, propagating a service error to the
caller. -/
theorem translate_passthrough_and_propagation :
    (∀ (text : String) (target : PyVal), translate_response none text target = .ok text) ∧
    (∀ (svc : LLMService) (text : String),
        translate_response (some svc) text (.vStr "english") = .ok text) ∧
    (∀ (svc : LLMService) (text : String) (target : PyVal), target ≠ .vStr "english" →
        translate_response (some svc) text target = svc.translateText text target) := by
  refine ⟨fun _ _ => rfl, fun _ _ => by simp [translate_response],
    fun svc text target h => by simp [translate_response, h]⟩

/-- Witness for C6's amended theorem at a non-english target. -/
theorem translate_passthrough_and_propagation_witness :
    translate_response (some failingSvc) "hi" (.vStr "hindi") =
      failingSvc.translateText "hi" (.vStr "hindi") :=
  translate_passthrough_and_propagation.2.2 failingSvc "hi" (.vStr "hindi") (by decide)

/-! ## C3 — session bag replacement -/

/-- A pending-order bag as the builder writes it. -/
def confBagDemo : Bag :=
  [("medicine", .vStr "Dolo"), ("quantity", .vInt 2), ("unit", .vStr "strips"),
   ("unit_price", .vInt 60), ("total", .vInt 120),
   ("dosage_frequency", .vStr "Once daily"),
   ("prescription_required", .vStr "Yes"), ("lang", .vStr "english")]

/-- A session sitting in awaiting_confirmation on a pending-order bag. -/
def dbConfCancelDemo : DB :=
  { sessions := [("917000000002",
      { step := "awaiting_confirmation", data := confBagDemo })],
    customers := [], patients := [], orders := [] }

/-- C3 (counterexample): a cancellation turn changes the step from
awaiting_confirmation to main_menu, but because `update_state` is called with
no data bag, the persisted bag still carries every pending-order key —
including the stale unit price and quantity — not "only the keys required by
the new step". -/
theorem cancel_turn_keeps_stale_bag :
    stepAfter (process_message none dbConfCancelDemo "917000000002" "nah" 50 1111 7)
        "917000000002" = "main_menu" ∧
    (get_state (process_message none dbConfCancelDemo "917000000002" "nah" 50 1111 7).db
        "917000000002").data =
      [("medicine", .vStr "Dolo"), ("quantity", .vInt 2), ("unit", .vStr "strips"),
       ("unit_price", .vInt 60), ("total", .vInt 120),
       ("dosage_frequency", .vStr "Once daily"),
       ("prescription_required", .vStr "Yes"), ("lang", .vStr "english")] := by
  exact ⟨rfl, rfl⟩

/-- C3 (amended): a transition that passes a data bag replaces the stored bag
completely (no merge); but a transition that passes no bag — as on
cancellation, confirmation success, registration completion and the fallback
reset — keeps the previous bag in place under the new step, so stale keys can
survive a step change. -/
theorem update_state_replace_or_retain :
    ∀ (db : DB) (phone st : String) (bag : Bag),
      get_state (update_state db phone st (some bag)) phone = { step := st, data := bag } ∧
      get_state (update_state db phone st none) phone =
        { step := st, data := (get_state db phone).data } :=
  fun db phone st bag => ⟨get_state_update_some db phone st bag, get_state_update_none db phone st⟩

/-! ## C8 — awaiting_age parsing -/

/-- A session sitting in awaiting_age after the onboarding turns. -/
def dbAgeDemo : DB :=
  { sessions := [("917000000001",
      { step := "awaiting_age",
        data := [("name", .vStr "Asha"), ("gender", .vStr "Female")] })],
    customers := [], patients := [], orders := [] }

/-- C8 (counterexample): a successful age turn creates the profile and moves
the step to main_menu, but the session bag is not cleared: `update_state` is
called with no bag, so the name/gender keys persist under main_menu. -/
theorem age_success_bag_not_cleared :
    (get_state (process_message none dbAgeDemo "917000000001" "25" 50 1111 4).db
        "917000000001") =
      { step := "main_menu", data := [("name", .vStr "Asha"), ("gender", .vStr "Female")] } ∧
    (process_message none dbAgeDemo "917000000001" "25" 50 1111 4).db.customers =
      [{ phone := "917000000001", name := .vStr "Asha", gender := .vStr "Female", age := 25,
         language := "english", medication_history := [], registered_at := 4 }] :=
  ⟨rfl, rfl⟩

/-- C8 (amended): in awaiting_age, a message with at least one digit yields a
customer profile built from the session bag plus the parsed (non-negative)
age and moves the step to main_menu — without clearing the persisted bag —
while a message with no digit yields the re-prompt and leaves the database,
including the session, completely unchanged; neither case raises. -/
theorem awaiting_age_parse_behavior (eng : Option LLMService) (db : DB)
    (phone message : String) (price oid : Int) (now : Nat) (bag : Bag)
    (h : sessionLookup db.sessions phone = some { step := "awaiting_age", data := bag }) :
    (digitsOf message = [] →
      process_message eng db phone message price oid now = okTurn invalidAgeText [] db) ∧
    (digitsOf message ≠ [] →
      process_message eng db phone message price oid now =
        okTurn (profileSavedText (bagGet bag "name")) []
          (update_state
            { db with customers := db.customers ++
                [{ phone := phone, name := bagGet bag "name", gender := bagGet bag "gender",
                   age := (digitsToNat (digitsOf message) : Nat), language := "english",
                   medication_history := [], registered_at := now }] }
            phone "main_menu" none) ∧
      (0 : Int) ≤ (digitsToNat (digitsOf message) : Nat) ∧
      stepAfter (process_message eng db phone message price oid now) phone = "main_menu") := by
  have hg : get_state db phone = { step := "awaiting_age", data := bag } := by
    simp [get_state, h]
  constructor
  · intro hd
    simp only [process_message, hg]
    simp [hd]
  · intro hd
    refine ⟨?_, by positivity, ?_⟩
    · simp only [process_message, hg]
      simp [hd]
    · simp only [stepAfter, process_message, hg]
      simp only [okTurn]
      simp [hd, get_state_update_none]

/-- Witness for C8 on a digit-free message: the re-prompt with nothing
changed. -/
theorem awaiting_age_parse_behavior_witness :
    process_message none dbAgeDemo "917000000001" "twenty five" 50 1111 3 =
      okTurn invalidAgeText [] dbAgeDemo :=
  (awaiting_age_parse_behavior none dbAgeDemo "917000000001" "twenty five" 50 1111 3
    [("name", .vStr "Asha"), ("gender", .vStr "Female")] rfl).1 (by decide)

/-! ## C2 — the awaiting_confirmation transition -/

/-- Dispatch: a turn whose session step is awaiting_confirmation runs the
confirmation block on the stored bag. -/
theorem process_message_at_confirmation (eng : Option LLMService) (db : DB)
    (phone message : String) (bag : Bag) (price oid : Int) (now : Nat)
    (h : sessionLookup db.sessions phone =
      some { step := "awaiting_confirmation", data := bag }) :
    process_message eng db phone message price oid now =
      confirmationBlock eng db phone message bag oid now := by
  have hg : get_state db phone = { step := "awaiting_confirmation", data := bag } := by
    simp [get_state, h]
  simp only [process_message, hg]
  simp

/-- C2 (counterexample): in awaiting_confirmation, "nah" yields the
cancellation reply, no Order Store write, and a return to main_menu — but the
pending order data is not discarded: the full pending bag (with its total and
quantity) is still the persisted session bag after the turn. -/
theorem cancel_reply_but_bag_retained :
    replyText (process_message none dbConfCancelDemo "917000000002" "nah" 60 1111 8) =
      some cancelText ∧
    (process_message none dbConfCancelDemo "917000000002" "nah" 60 1111 8).db.orders = [] ∧
    stepAfter (process_message none dbConfCancelDemo "917000000002" "nah" 60 1111 8)
      "917000000002" = "main_menu" ∧
    bagLookup (get_state (process_message none dbConfCancelDemo "917000000002" "nah" 60
      1111 8).db "917000000002").data "total" = some (.vInt 120) :=
  ⟨rfl, rfl, rfl, rfl⟩

/-- C2 (amended): in awaiting_confirmation, a message containing one of
"yes"/"confirm"/"ok" (case-insensitive substring) persists the pending order,
applies the medication-history update for a string medicine, emits the
localized success message and moves to main_menu; any other message emits the
localized cancellation, writes nothing to the Order Store or the customers,
and moves to main_menu — but in both cases the pending bag stays in the
session store rather than being discarded. -/
theorem confirmation_turn_behavior (eng : Option LLMService) (db : DB)
    (phone message : String) (bag : Bag) (price oid : Int) (now : Nat)
    (h : sessionLookup db.sessions phone =
      some { step := "awaiting_confirmation", data := bag }) :
    (∀ t : String, isAffirmative message = false →
      translate_response eng cancelText (bagGetD bag "lang" (.vStr "english")) = .ok t →
      process_message eng db phone message price oid now =
        okTurn t [] (update_state db phone "main_menu" none) ∧
      (get_state (process_message eng db phone message price oid now).db phone).data = bag ∧
      (process_message eng db phone message price oid now).db.orders = db.orders ∧
      (process_message eng db phone message price oid now).db.customers = db.customers) ∧
    (∀ (mv : PyVal) (t : String), isAffirmative message = true →
      bagLookup bag "medicine" = some mv →
      translate_response eng (orderConfirmedText mv)
          (bagGetD bag "lang" (.vStr "english")) = .ok t →
      (process_message eng db phone message price oid now).res =
        .ok { text := t, buttons := [{ id := "new", title := "Buy Medicine" },
                                     { id := "my_orders", title := "My Orders" }] } ∧
      (process_message eng db phone message price oid now).db.orders =
        db.orders ++ [confirmOrderDoc db phone bag oid now] ∧
      (process_message eng db phone message price oid now).db.customers =
        (match mv with
         | .vStr s => updateCustomerHist db.customers phone (sanitizeKey s) now
             (bagGet bag "dosage_frequency")
         | _ => db.customers) ∧
      stepAfter (process_message eng db phone message price oid now) phone = "main_menu" ∧
      (get_state (process_message eng db phone message price oid now).db phone).data = bag) := by
  rw [process_message_at_confirmation eng db phone message bag price oid now h]
  have hbg : ∀ mv, bagLookup bag "medicine" = some mv → bagGet bag "medicine" = mv := by
    intro mv hmv; simp [bagGet, hmv]
  have hstep : ∀ X : DB, (get_state (update_state X phone "main_menu" none) phone).step =
      "main_menu" := by
    intro X; rw [get_state_update_none]
  have hdata : ∀ X : DB, X.sessions = db.sessions →
      (get_state (update_state X phone "main_menu" none) phone).data = bag := by
    intro X hX
    rw [get_state_update_none]
    show (get_state X phone).data = bag
    unfold get_state
    rw [hX, h]
  constructor
  · intro t hfalse htr
    simp only [confirmationBlock, hfalse]
    rw [htr]
    exact ⟨rfl, hdata db rfl, rfl, rfl⟩
  · intro mv t htrue hmv htr
    simp only [confirmationBlock, htrue, hbg mv hmv, hmv]
    rw [htr]
    cases mv with
    | vNone => exact ⟨rfl, rfl, rfl, hstep _, hdata _ rfl⟩
    | vStr s => exact ⟨rfl, rfl, rfl, hstep _, hdata _ rfl⟩
    | vInt n => exact ⟨rfl, rfl, rfl, hstep _, hdata _ rfl⟩

/-- On an affirmative message the confirmation block always appends exactly
the built order document, whatever the medicine value, the key lookup, and
the translation outcome. -/
theorem confirmationBlock_orders_affirm (eng : Option LLMService) (db : DB)
    (phone message : String) (bag : Bag) (oid : Int) (now : Nat)
    (haff : isAffirmative message = true) :
    (confirmationBlock eng db phone message bag oid now).db.orders =
      db.orders ++ [confirmOrderDoc db phone bag oid now] := by
  simp only [confirmationBlock, haff, if_true]
  repeat' split
  all_goals rfl

/-- Witness for C2 at a concrete confirmed order: after "yes" on the demo
pending bag, the order store holds exactly the built order document and the
session is back at main_menu. -/
theorem confirmation_turn_behavior_witness :
    (process_message none dbConfCancelDemo "917000000002" "yes" 60 4321 9).db.orders =
      dbConfCancelDemo.orders ++ [confirmOrderDoc dbConfCancelDemo "917000000002" confBagDemo 4321 9] ∧
    stepAfter (process_message none dbConfCancelDemo "917000000002" "yes" 60 4321 9)
      "917000000002" = "main_menu" :=
  ⟨((confirmation_turn_behavior none dbConfCancelDemo "917000000002" "yes" confBagDemo
      60 4321 9 rfl).2 (.vStr "Dolo") (orderConfirmedText (.vStr "Dolo")) rfl rfl rfl).2.1,
   ((confirmation_turn_behavior none dbConfCancelDemo "917000000002" "yes" confBagDemo
      60 4321 9 rfl).2 (.vStr "Dolo") (orderConfirmedText (.vStr "Dolo")) rfl rfl rfl).2.2.2.1⟩

/-! ## History-map lemmas -/

theorem histCount_histInc (h : List (String × HistEntry)) (k : String) (now : Nat)
    (d : PyVal) (k' : String) :
    histCount (histInc h k now d) k' =
      if k' = k then histCount h k' + 1 else histCount h k' := by
  induction h with
  | nil =>
    by_cases hk : k' = k <;> simp [histInc, histLookup, histCount, hk, Ne.symm]
  | cons hd tl ih =>
    obtain ⟨k0, e⟩ := hd
    by_cases h0 : k0 = k
    · subst h0
      by_cases hk : k0 = k'
      · subst hk; simp [histInc, histLookup, histCount]
      · simp [histInc, histLookup, histCount, hk, Ne.symm hk]
    · by_cases hk : k0 = k'
      · subst hk
        simp [histInc, histLookup, histCount, h0, Ne.symm h0]
      · simp only [histInc, if_neg h0, histCount, histLookup, if_neg hk]
        simpa [histCount] using ih

theorem updateCustomerHist_no_match (l : List Customer) (phone k : String) (now : Nat)
    (d : PyVal) (h : findCustomer l phone = none) :
    updateCustomerHist l phone k now d = l := by
  induction l with
  | nil => rfl
  | cons c rest ih =>
    by_cases hc : c.phone = phone
    · simp [findCustomer, hc] at h
    · simp only [findCustomer, if_neg hc] at h
      simp [updateCustomerHist, hc, ih h]

theorem findCustomer_updateCustomerHist (l : List Customer) (phone k : String)
    (now : Nat) (d : PyVal) (c : Customer) (h : findCustomer l phone = some c) :
    findCustomer (updateCustomerHist l phone k now d) phone =
      some { c with medication_history := histInc c.medication_history k now d } := by
  induction l with
  | nil => simp [findCustomer] at h
  | cons c0 rest ih =>
    by_cases hc : c0.phone = phone
    · simp only [findCustomer, if_pos hc] at h
      cases h
      simp [updateCustomerHist, findCustomer, hc]
    · simp only [findCustomer, if_neg hc] at h
      simp [updateCustomerHist, findCustomer, hc, ih h]

/-! ## C10 — status fields and guest placeholders of persisted orders -/

/-- C10: every order the confirmation transition persists carries status
"Confirmed" and review_status "Under Review" — never the "Pending" default
declared by the (unused) pydantic Order model — and when neither a customer
profile nor a legacy patient record exists, the order is persisted with the
Guest/0/Unknown placeholder identity instead of failing the insert. -/
theorem confirmed_order_status_and_guest (eng : Option LLMService) (db : DB)
    (phone message : String) (bag : Bag) (price oid : Int) (now : Nat)
    (h : sessionLookup db.sessions phone =
      some { step := "awaiting_confirmation", data := bag })
    (haff : isAffirmative message = true) :
    (process_message eng db phone message price oid now).db.orders =
      db.orders ++ [confirmOrderDoc db phone bag oid now] ∧
    (confirmOrderDoc db phone bag oid now).status = "Confirmed" ∧
    (confirmOrderDoc db phone bag oid now).review_status = "Under Review" ∧
    (confirmOrderDoc db phone bag oid now).status ≠ orderStatusDefault ∧
    (findCustomer db.customers phone = none → findPatient db.patients phone = none →
      (confirmOrderDoc db phone bag oid now).customer_name = .vStr "Guest" ∧
      (confirmOrderDoc db phone bag oid now).customer_age = .vInt 0 ∧
      (confirmOrderDoc db phone bag oid now).customer_gender = .vStr "Unknown") := by
  refine ⟨?_, rfl, rfl, by simp [confirmOrderDoc, orderStatusDefault], ?_⟩
  · rw [process_message_at_confirmation eng db phone message bag price oid now h]
    exact confirmationBlock_orders_affirm eng db phone message bag oid now haff
  · intro h1 h2
    simp [confirmOrderDoc, resolvePData, h1, h2]

/-- Witness for C10 on a concrete guest confirmation. -/
theorem confirmed_order_status_and_guest_witness :
    (process_message none dbConfCancelDemo "917000000002" "ok" 60 7777 12).db.orders =
      dbConfCancelDemo.orders ++
        [confirmOrderDoc dbConfCancelDemo "917000000002" confBagDemo 7777 12] ∧
    (confirmOrderDoc dbConfCancelDemo "917000000002" confBagDemo 7777 12).status =
      "Confirmed" ∧
    (confirmOrderDoc dbConfCancelDemo "917000000002" confBagDemo 7777 12).customer_name =
      .vStr "Guest" :=
  ⟨(confirmed_order_status_and_guest none dbConfCancelDemo "917000000002" "ok" confBagDemo
      60 7777 12 rfl rfl).1,
   (confirmed_order_status_and_guest none dbConfCancelDemo "917000000002" "ok" confBagDemo
      60 7777 12 rfl rfl).2.1,
   ((confirmed_order_status_and_guest none dbConfCancelDemo "917000000002" "ok" confBagDemo
      60 7777 12 rfl rfl).2.2.2.2 rfl rfl).1⟩

/-! ## C9 — medication-history update on confirmation -/

/-- C9: on a confirmed order, when no customer profile exists the history
update is skipped (the customers collection is untouched) without failing the
confirmation, and the order is still persisted; when a profile exists, the
count stored under the sanitized medicine key ('.' and '$' stripped) grows by
exactly 1, and no key's count ever decreases. -/
theorem confirmation_history_update (eng : Option LLMService) (db : DB)
    (phone message : String) (bag : Bag) (price oid : Int) (now : Nat)
    (med t : String)
    (h : sessionLookup db.sessions phone =
      some { step := "awaiting_confirmation", data := bag })
    (haff : isAffirmative message = true)
    (hmv : bagLookup bag "medicine" = some (.vStr med))
    (htr : translate_response eng (orderConfirmedText (.vStr med))
      (bagGetD bag "lang" (.vStr "english")) = .ok t) :
    (process_message eng db phone message price oid now).res =
      .ok { text := t, buttons := [{ id := "new", title := "Buy Medicine" },
                                   { id := "my_orders", title := "My Orders" }] } ∧
    (process_message eng db phone message price oid now).db.orders =
      db.orders ++ [confirmOrderDoc db phone bag oid now] ∧
    (findCustomer db.customers phone = none →
      (process_message eng db phone message price oid now).db.customers = db.customers) ∧
    (∀ c : Customer, findCustomer db.customers phone = some c →
      findCustomer (process_message eng db phone message price oid now).db.customers phone =
        some { c with medication_history := (histInc c.medication_history (sanitizeKey med)
                                              now (bagGet bag "dosage_frequency")) } ∧
      histCount (histInc c.medication_history (sanitizeKey med) now
          (bagGet bag "dosage_frequency")) (sanitizeKey med) =
        histCount c.medication_history (sanitizeKey med) + 1 ∧
      ∀ k : String, histCount c.medication_history k ≤
        histCount (histInc c.medication_history (sanitizeKey med) now
          (bagGet bag "dosage_frequency")) k) := by
  rw [process_message_at_confirmation eng db phone message bag price oid now h]
  have hb : bagGet bag "medicine" = .vStr med := by simp [bagGet, hmv]
  have hcust : (confirmationBlock eng db phone message bag oid now).db.customers =
      updateCustomerHist db.customers phone (sanitizeKey med) now
        (bagGet bag "dosage_frequency") := by
    simp only [confirmationBlock, haff, if_true, hb, hmv]
    rw [htr]
    rfl
  refine ⟨?_, confirmationBlock_orders_affirm eng db phone message bag oid now haff,
    ?_, ?_⟩
  · simp only [confirmationBlock, haff, if_true, hb, hmv]
    rw [htr]
    rfl
  · intro hnone
    rw [hcust, updateCustomerHist_no_match _ _ _ _ _ hnone]
  · intro c hc
    refine ⟨?_, ?_, ?_⟩
    · rw [hcust]
      exact findCustomer_updateCustomerHist _ _ _ _ _ _ hc
    · rw [histCount_histInc]
      simp
    · intro k
      rw [histCount_histInc]
      by_cases hkk : k = sanitizeKey med <;> simp [hkk]

/-! ## Main-menu dispatch lemmas -/

/-- Dispatch: a turn whose session step is main_menu runs the main-menu block
and, when it falls through, the fallback section. -/
theorem process_message_at_main_menu (eng : Option LLMService) (db : DB)
    (phone message : String) (bag : Bag) (price oid : Int) (now : Nat)
    (h : sessionLookup db.sessions phone = some { step := "main_menu", data := bag }) :
    process_message eng db phone message price oid now =
      (match mainMenuBlock eng db phone message
          (findCustomer db.customers phone).isSome price with
       | .done t => t
       | .fallthrough db1 => fallbackBlock db1 phone message) := by
  have hg : get_state db phone = { step := "main_menu", data := bag } := by
    simp [get_state, h]
  simp only [process_message, hg]
  simp

/-- The main-menu block falls out (to the fallback section) exactly when the
extraction yields no greeting intent and no truthy medicine; the customer
language update has already been applied at that point. -/
theorem mainMenuBlock_fallthrough (eng : Option LLMService) (db : DB)
    (phone message : String) (pe : Bool) (price : Int) (ex : ExtractionResult)
    (hex : extract_order_details eng message = ex)
    (hint : ex.intent.getD "other" ≠ "greeting")
    (hmed : optStrTruthy ex.medicine = false) :
    mainMenuBlock eng db phone message pe price =
      .fallthrough (if pe then
        { db with customers := setCustomerLang db.customers phone (ex.language.getD "english") }
      else db) := by
  simp only [mainMenuBlock, hex]
  rw [if_neg hint]
  cases hm : ex.medicine with
  | none => rfl
  | some m =>
    have hm0 : m = "" := by simpa [optStrTruthy, hm] using hmed
    subst hm0
    simp

/-- The fallback section always parks the session at main_menu. -/
theorem fallbackBlock_step (db : DB) (phone message : String) :
    stepAfter (fallbackBlock db phone message) phone = "main_menu" := by
  simp only [fallbackBlock, stepAfter, okTurn]
  split
  · split
    · rw [get_state_update_none]
    · rw [get_state_update_none]
  · rw [get_state_update_none]

/-- Without a history keyword the fallback section replies with the generic
prompt. -/
theorem fallbackBlock_no_keyword (db : DB) (phone message : String)
    (hk : hasHistoryKeyword message = false) :
    fallbackBlock db phone message =
      okTurn genericFallbackText [{ id := "my_orders", title := "My Orders" }]
        (update_state db phone "main_menu" none) := by
  simp [fallbackBlock, hk]

/-- With a history keyword the fallback section renders the recent-orders
summary, or the no-past-orders text when the customer has none. -/
theorem fallbackBlock_keyword (db : DB) (phone message : String)
    (hk : hasHistoryKeyword message = true) :
    (recentOrders db phone = [] →
      fallbackBlock db phone message =
        okTurn noOrdersText [{ id := "new", title := "Order Medicine" }]
          (update_state db phone "main_menu" none)) ∧
    (recentOrders db phone ≠ [] →
      fallbackBlock db phone message =
        okTurn (ordersSummaryText (recentOrders db phone))
          [{ id := "new", title := "Order Medicine" }]
          (update_state db phone "main_menu" none)) := by
  have hro : recentOrders (update_state db phone "main_menu" none) phone =
      recentOrders db phone := rfl
  constructor
  · intro he
    simp [fallbackBlock, hk, hro, he]
  · intro he
    have : (recentOrders db phone).isEmpty = false := by
      cases hc : recentOrders db phone with
      | nil => exact absurd hc he
      | cons a l => rfl
    simp [fallbackBlock, hk, hro, this]

/-- A database whose customer already has one Dolo order on record. -/
def dbHistDemo : DB :=
  { sessions := [("917000000003",
      { step := "awaiting_confirmation", data := confBagDemo })],
    customers := [{ phone := "917000000003", name := .vStr "Asha", gender := .vStr "Female",
                    age := 25, language := "english",
                    medication_history := [("Dolo",
                      { count := 1, last_ordered := some 2, dosage := .vStr "Once daily" })],
                    registered_at := 1 }],
    patients := [], orders := [] }

/-- Witness for C9: a concrete profile's Dolo count goes from 1 to 2 on a
confirmed Dolo order. -/
theorem confirmation_history_update_witness :
    findCustomer (process_message none dbHistDemo "917000000003" "yes" 60 1234
        20).db.customers "917000000003" =
      some { phone := "917000000003", name := .vStr "Asha", gender := .vStr "Female",
             age := 25, language := "english",
             medication_history := [("Dolo",
               { count := 2, last_ordered := some 20, dosage := .vStr "Once daily" })],
             registered_at := 1 } := by
  have hw := ((confirmation_history_update none dbHistDemo "917000000003" "yes" confBagDemo
    60 1234 20 "Dolo" (orderConfirmedText (.vStr "Dolo")) rfl rfl rfl rfl).2.2.2
    { phone := "917000000003", name := .vStr "Asha", gender := .vStr "Female",
      age := 25, language := "english",
      medication_history := [("Dolo",
        { count := 1, last_ordered := some 2, dosage := .vStr "Once daily" })],
      registered_at := 1 } rfl).1
  simpa [histInc, sanitizeKey, bagGet, bagLookup, confBagDemo] using hw

/-! ## C7 — main-menu history query -/

/-- A registered customer used by the main-menu scenarios. -/
def demoCustomer : Customer :=
  { phone := "917000000004", name := .vStr "Ravi", gender := .vStr "Male", age := 30,
    language := "english", medication_history := [], registered_at := 0 }

/-- A past order of that customer. -/
def demoOrder : OrderDoc :=
  { order_id := "ORD-1111", customer_id := "917000000004", customer_name := .vStr "Ravi",
    customer_age := .vInt 30, customer_gender := .vStr "Male",
    items := [{ medicine := .vStr "Crocin", quantity := .vInt 1, unit := .vStr "strip",
                price := .vInt 80, dosage_frequency := .vStr "Once daily",
                prescription_required := .vStr "Yes" }],
    total_price := .vInt 80, status := "Confirmed", review_status := "Under Review",
    order_date := 5, product_name := .vStr "Crocin", quantity_str := "1 strip",
    dosage_frequency := .vStr "Once daily", prescription_required := .vStr "Yes" }

/-- Main-menu session of the registered customer, with one past order. -/
def dbMainMenuDemo : DB :=
  { sessions := [("917000000004", { step := "main_menu", data := [] })],
    customers := [demoCustomer], patients := [], orders := [demoOrder] }

/-- C7 (counterexample): in main_menu with the extraction returning intent
"history", a message that lacks the keyword substrings ("my order" / "status"
/ "check order") gets the generic prompt and no recent-orders summary, even
though the customer does have a past order the claimed query would return. -/
theorem history_intent_without_keyword_no_summary :
    replyText (process_message (some historySvc) dbMainMenuDemo "917000000004"
        "show me my past purchases" 50 1 30) = some genericFallbackText ∧
    stepAfter (process_message (some historySvc) dbMainMenuDemo "917000000004"
        "show me my past purchases" 50 1 30) "917000000004" = "main_menu" ∧
    recentOrders dbMainMenuDemo "917000000004" = [demoOrder] :=
  ⟨rfl, rfl, rfl⟩

/-- C7 (amended): in main_menu, when the extraction produces no greeting
intent and no truthy medicine, the turn falls to the keyword section: the
last-5 newest-first summary (or the no-past-orders text) is rendered exactly
when the lowercased message contains "my order", "status" or "check order";
the HistoryQuery intent alone only falls through and does not trigger the
Order Store query; the next step is main_menu either way. -/
theorem main_menu_history_needs_keyword (eng : Option LLMService) (db : DB)
    (phone message : String) (bag : Bag) (price oid : Int) (now : Nat)
    (ex : ExtractionResult)
    (h : sessionLookup db.sessions phone = some { step := "main_menu", data := bag })
    (hex : extract_order_details eng message = ex)
    (hint : ex.intent.getD "other" ≠ "greeting")
    (hmed : optStrTruthy ex.medicine = false) :
    ∀ dbL : DB,
      dbL = (if (findCustomer db.customers phone).isSome then
        { db with customers := setCustomerLang db.customers phone (ex.language.getD "english") }
      else db) →
      process_message eng db phone message price oid now = fallbackBlock dbL phone message ∧
      stepAfter (process_message eng db phone message price oid now) phone = "main_menu" ∧
      (hasHistoryKeyword message = false →
        replyText (process_message eng db phone message price oid now) =
          some genericFallbackText) ∧
      (hasHistoryKeyword message = true → recentOrders dbL phone = [] →
        replyText (process_message eng db phone message price oid now) = some noOrdersText) ∧
      (hasHistoryKeyword message = true → recentOrders dbL phone ≠ [] →
        replyText (process_message eng db phone message price oid now) =
          some (ordersSummaryText (recentOrders dbL phone))) := by
  intro dbL hdbL
  have hdisp : process_message eng db phone message price oid now =
      fallbackBlock dbL phone message := by
    rw [process_message_at_main_menu eng db phone message bag price oid now h,
      mainMenuBlock_fallthrough eng db phone message
        (findCustomer db.customers phone).isSome price ex hex hint hmed, hdbL]
  refine ⟨hdisp, ?_, ?_, ?_, ?_⟩
  · rw [hdisp]; exact fallbackBlock_step dbL phone message
  · intro hk
    rw [hdisp, fallbackBlock_no_keyword dbL phone message hk]
    rfl
  · intro hk he
    rw [hdisp, (fallbackBlock_keyword dbL phone message hk).1 he]
    rfl
  · intro hk he
    rw [hdisp, (fallbackBlock_keyword dbL phone message hk).2 he]
    rfl

/-- Witness for C7: with the keyword "status" the same configuration does
render the summary of the stored order. -/
theorem main_menu_history_needs_keyword_witness :
    replyText (process_message (some historySvc) dbMainMenuDemo "917000000004" "status"
        50 1 30) = some (ordersSummaryText (recentOrders dbMainMenuDemo "917000000004")) :=
  (main_menu_history_needs_keyword (some historySvc) dbMainMenuDemo "917000000004" "status"
    [] 50 1 30 { intent := some "history", language := some "english" } rfl rfl
    (by decide) rfl dbMainMenuDemo
    (by simp [dbMainMenuDemo, demoCustomer, findCustomer, setCustomerLang])).2.2.2.2 rfl
    (by decide)

/-! ## C5 — determinism up to the random draws -/

/-- Whether a turn reaches `process_order_confirmation` and hence draws the
placeholder price `random.randint(50, 500)`: either the main-menu block sees a
non-greeting intent with truthy medicine and truthy quantity, or the session
is in awaiting_quantity. -/
def invokesPricing (eng : Option LLMService) (db : DB) (phone message : String) : Bool :=
  let ex := extract_order_details eng message
  let step := (get_state db phone).step
  let mm : Bool := step == "main_menu" ||
    ((findCustomer db.customers phone).isSome && step == "check_user")
  (mm && (ex.intent.getD "other" != "greeting") && optStrTruthy ex.medicine &&
    optIntTruthy ex.quantity) || (step == "awaiting_quantity")

/-- The main-menu block is independent of the price draw whenever it does not
reach the builder. -/
theorem mainMenuBlock_price_irrel (eng : Option LLMService) (db : DB)
    (phone message : String) (pe : Bool) (p1 p2 : Int)
    (hno : (extract_order_details eng message).intent.getD "other" = "greeting" ∨
      optStrTruthy (extract_order_details eng message).medicine = false ∨
      optIntTruthy (extract_order_details eng message).quantity = false) :
    mainMenuBlock eng db phone message pe p1 = mainMenuBlock eng db phone message pe p2 := by
  simp only [mainMenuBlock]
  by_cases hg : (extract_order_details eng message).intent.getD "other" = "greeting"
  · rw [if_pos hg, if_pos hg]
  · rw [if_neg hg, if_neg hg]
    cases hm : (extract_order_details eng message).medicine with
    | none => rfl
    | some m =>
      rcases hno with hno | hno | hno
      · exact absurd hno hg
      · have hm0 : m = "" := by simpa [optStrTruthy, hm] using hno
        subst hm0
        simp
      · by_cases hm0 : m = ""
        · subst hm0; simp
        · simp [hm0, hno]

/-- The confirmation block's reply and next step are independent of the
order-id draw (which only lands in the persisted order document). -/
theorem confirmationBlock_res_oid (eng : Option LLMService) (db : DB)
    (phone message : String) (bag : Bag) (o1 o2 : Int) (now : Nat) :
    (confirmationBlock eng db phone message bag o1 now).res =
      (confirmationBlock eng db phone message bag o2 now).res ∧
    stepAfter (confirmationBlock eng db phone message bag o1 now) phone =
      stepAfter (confirmationBlock eng db phone message bag o2 now) phone := by
  constructor
  · simp only [confirmationBlock]
    repeat' split
    all_goals rfl
  · simp only [confirmationBlock, stepAfter, okTurn, errTurn]
    repeat' split
    all_goals rfl

/-- A turn that neither reaches the pricing builder nor sits at
awaiting_confirmation is entirely independent of both random draws. -/
theorem process_message_draw_eq (eng : Option LLMService) (db : DB)
    (phone message : String) (p1 p2 o1 o2 : Int) (now : Nat)
    (hnp : invokesPricing eng db phone message = false)
    (hnc : (get_state db phone).step ≠ "awaiting_confirmation") :
    process_message eng db phone message p1 o1 now =
      process_message eng db phone message p2 o2 now := by
  simp only [process_message]
  split_ifs with h1 h2 h3 h4 h5 h6 h7
  · rfl
  · rfl
  · rfl
  · rfl
  · rfl
  · have hno : (extract_order_details eng message).intent.getD "other" = "greeting" ∨
        optStrTruthy (extract_order_details eng message).medicine = false ∨
        optIntTruthy (extract_order_details eng message).quantity = false := by
      by_contra hcon
      push_neg at hcon
      obtain ⟨hg, hm, hq2⟩ := hcon
      have hm1 := (Bool.not_eq_false _).mp hm
      have hq1 := (Bool.not_eq_false _).mp hq2
      simp only [invokesPricing] at hnp
      rcases h6 with hstep | ⟨hsome, hstep⟩
      · rw [hstep] at hnp
        simp [hg, hm1, hq1] at hnp
      · rw [hstep] at hnp
        simp [hg, hm1, hq1, hsome] at hnp
    rw [mainMenuBlock_price_irrel eng db phone message
      (findCustomer db.customers phone).isSome p1 p2 hno]
  · exfalso
    simp only [invokesPricing] at hnp
    rw [h7] at hnp
    simp at hnp
  · rfl

/-- C5 (counterexample): replaying the same session state (main_menu, empty
bag), the same message, and the deterministic disabled-service extraction,
two runs that draw different placeholder prices return different replies —
the reply embeds the freshly drawn price, so a rerun of the same turn is not
reproducible. -/
theorem pricing_draw_changes_reply :
    replyText (process_message none dbMainMenuDemo "917000000004" "Dolo" 50 1 31) ≠
      replyText (process_message none dbMainMenuDemo "917000000004" "Dolo" 51 1 31) := by
  decide

/-- C5 (amended): with the extraction result fixed, a turn is deterministic
up to the program's internal random draws: a turn that does not reach the
pricing builder and is not at awaiting_confirmation is identical across
draws, and an awaiting_confirmation turn has draw-independent reply and next
step (the order-id draw lands only in the persisted order document); turns
that do reach the builder embed the drawn price in the reply. -/
theorem turn_deterministic_up_to_draws (eng : Option LLMService) (db : DB)
    (phone message : String) (p1 p2 o1 o2 : Int) (now : Nat) :
    (invokesPricing eng db phone message = false ∧
        (get_state db phone).step ≠ "awaiting_confirmation" →
      process_message eng db phone message p1 o1 now =
        process_message eng db phone message p2 o2 now) ∧
    ((get_state db phone).step = "awaiting_confirmation" →
      (process_message eng db phone message p1 o1 now).res =
        (process_message eng db phone message p2 o2 now).res ∧
      stepAfter (process_message eng db phone message p1 o1 now) phone =
        stepAfter (process_message eng db phone message p2 o2 now) phone) := by
  constructor
  · rintro ⟨hnp, hnc⟩
    exact process_message_draw_eq eng db phone message p1 p2 o1 o2 now hnp hnc
  · intro hconf
    cases hs : sessionLookup db.sessions phone with
    | none => simp [get_state, hs] at hconf
    | some rec =>
      obtain ⟨st, data⟩ := rec
      have hst : st = "awaiting_confirmation" := by simpa [get_state, hs] using hconf
      subst hst
      rw [process_message_at_confirmation eng db phone message data p1 o1 now hs,
        process_message_at_confirmation eng db phone message data p2 o2 now hs]
      exact confirmationBlock_res_oid eng db phone message data o1 o2 now

/-- Witness for C5 at a draw-independent turn (awaiting_age). -/
theorem turn_deterministic_up_to_draws_witness :
    process_message none dbAgeDemo "917000000001" "hello" 50 1111 3 =
      process_message none dbAgeDemo "917000000001" "hello" 499 9999 3 :=
  (turn_deterministic_up_to_draws none dbAgeDemo "917000000001" "hello"
    50 499 1111 9999 3).1 ⟨rfl, by decide⟩

/-! ## C4 — order totals -/

/-- Sum over line items of price × quantity, defined when every item carries
integer price and quantity. -/
def lineSum (items : List ItemDoc) : Option Int :=
  items.foldr (fun it acc =>
    match it.price, it.quantity, acc with
    | .vInt p, .vInt q, some s => some (p * q + s)
    | _, _, _ => none) (some 0)

/-- Every line item's unit price is an integer inside randint's [50, 500]. -/
def priceBounded (items : List ItemDoc) : Prop :=
  ∀ it ∈ items, ∃ p : Int, it.price = .vInt p ∧ 50 ≤ p ∧ p ≤ 500

/-- The persisted total equals the sum of price × quantity over the line
items, whose unit prices sit in the pricing range. -/
def OrderTotalOK (o : OrderDoc) : Prop :=
  ∃ s : Int, lineSum o.items = some s ∧ o.total_price = .vInt s ∧ priceBounded o.items

/-- Shape of every bag stored under awaiting_confirmation: consistent
unit_price / quantity / total with the price in range. -/
def ConfBag (bag : Bag) : Prop :=
  ∃ p q : Int, bagLookup bag "unit_price" = some (.vInt p) ∧
    bagLookup bag "quantity" = some (.vInt q) ∧
    bagLookup bag "total" = some (.vInt (p * q)) ∧ 50 ≤ p ∧ p ≤ 500

/-- The inductive invariant: confirmation bags are consistent and every
persisted order satisfies the total equation. -/
def Inv (db : DB) : Prop :=
  (∀ (phone : String) (rec : SessionRecord), sessionLookup db.sessions phone = some rec →
    rec.step = "awaiting_confirmation" → ConfBag rec.data) ∧
  (∀ o ∈ db.orders, OrderTotalOK o)

/-- The store before any turn. -/
def emptyDB : DB := { sessions := [], customers := [], patients := [], orders := [] }

/-- Databases producible by the engine from an empty store, with each turn's
price draw inside randint(50, 500)'s range. -/
inductive Reachable (eng : Option LLMService) : DB → Prop where
  | init : Reachable eng emptyDB
  | step (db : DB) (phone message : String) (price oid : Int) (now : Nat)
      (hdb : Reachable eng db) (h50 : 50 ≤ price) (h500 : price ≤ 500) :
      Reachable eng (process_message eng db phone message price oid now).db

theorem inv_emptyDB : Inv emptyDB := by
  constructor
  · intro v rec hv
    simp [emptyDB, sessionLookup] at hv
  · intro o ho
    simp [emptyDB] at ho

theorem inv_customers (db : DB) (cs : List Customer) (hInv : Inv db) :
    Inv { db with customers := cs } :=
  ⟨hInv.1, hInv.2⟩

theorem inv_update_not_conf (db : DB) (phone st : String) (d : Option Bag)
    (hInv : Inv db) (hst : st ≠ "awaiting_confirmation") :
    Inv (update_state db phone st d) := by
  constructor
  · intro v rec hv hstep
    by_cases hvp : v = phone
    · subst hvp
      rw [update_state, sessionLookup_upsertSession_self] at hv
      cases hv
      exact absurd hstep hst
    · rw [update_state, sessionLookup_upsertSession_other _ _ _ _ _ hvp] at hv
      exact hInv.1 v rec hv hstep
  · intro o ho
    rw [update_state_orders] at ho
    exact hInv.2 o ho

theorem inv_update_conf (db : DB) (phone : String) (bag : Bag)
    (hInv : Inv db) (hbag : ConfBag bag) :
    Inv (update_state db phone "awaiting_confirmation" (some bag)) := by
  constructor
  · intro v rec hv hstep
    by_cases hvp : v = phone
    · subst hvp
      rw [update_state, sessionLookup_upsertSession_self] at hv
      cases hv
      exact hbag
    · rw [update_state, sessionLookup_upsertSession_other _ _ _ _ _ hvp] at hv
      exact hInv.1 v rec hv hstep
  · intro o ho
    rw [update_state_orders] at ho
    exact hInv.2 o ho

theorem inv_append_order (db : DB) (o : OrderDoc) (hInv : Inv db)
    (hOK : OrderTotalOK o) : Inv { db with orders := db.orders ++ [o] } := by
  refine ⟨hInv.1, fun o' ho' => ?_⟩
  rcases List.mem_append.mp ho' with h | h
  · exact hInv.2 o' h
  · rw [List.mem_singleton.mp h]
    exact hOK

/-- The builder leaves the store satisfying the invariant: the bag it writes
is consistent by construction. -/
theorem inv_builder (eng : Option LLMService) (db : DB) (phone : String)
    (medicine : PyVal) (qty : Int) (unit dosage presc lang : PyVal) (price : Int)
    (hInv : Inv db) (h50 : 50 ≤ price) (h500 : price ≤ 500) :
    Inv (process_order_confirmation eng db phone medicine qty unit dosage presc lang
      price).db := by
  have hbag : ConfBag
      [("medicine", medicine), ("quantity", .vInt qty),
       ("unit", if pyTruthy unit then unit else .vStr "units"),
       ("unit_price", .vInt price), ("total", .vInt (price * qty)),
       ("dosage_frequency", dosage), ("prescription_required", presc), ("lang", lang)] := by
    refine ⟨price, qty, ?_, ?_, ?_, h50, h500⟩ <;> simp [bagLookup]
  simp only [process_order_confirmation]
  split
  · exact inv_update_conf db phone _ hInv hbag
  · exact inv_update_conf db phone _ hInv hbag

/-- The data bag an affirmative confirmation turns into an order document
satisfies the total equation. -/
theorem confirmOrderDoc_total_ok (db : DB) (phone : String) (bag : Bag)
    (oid : Int) (now : Nat) (hbag : ConfBag bag) :
    OrderTotalOK (confirmOrderDoc db phone bag oid now) := by
  obtain ⟨p, q, hup, hq, htot, h50, h500⟩ := hbag
  refine ⟨p * q, ?_, ?_, ?_⟩
  · simp [confirmOrderDoc, lineSum, bagGet, hup, hq]
  · simp [confirmOrderDoc, bagGet, htot]
  · intro it hit
    simp only [confirmOrderDoc, List.mem_singleton] at hit
    subst hit
    exact ⟨p, by simp [bagGet, hup], h50, h500⟩

theorem inv_confirmationBlock (eng : Option LLMService) (db : DB)
    (phone message : String) (bag : Bag) (oid : Int) (now : Nat)
    (hInv : Inv db) (hbag : ConfBag bag) :
    Inv (confirmationBlock eng db phone message bag oid now).db := by
  have hOK := confirmOrderDoc_total_ok db phone bag oid now hbag
  have hdb1 : Inv { db with orders := db.orders ++ [confirmOrderDoc db phone bag oid now] } :=
    inv_append_order db _ hInv hOK
  simp only [confirmationBlock]
  split
  · split
    · split
      · exact inv_customers _ _ hdb1
      · exact hdb1
    · split
      · split
        · exact inv_customers _ _ hdb1
        · exact hdb1
      · apply inv_update_not_conf _ _ _ _ _ (by decide)
        split
        · exact inv_customers _ _ hdb1
        · exact hdb1
  · split
    · exact hInv
    · exact inv_update_not_conf _ _ _ _ hInv (by decide)

/-- Database component of a main-menu block outcome. -/
def mmOutDB : MMOut → DB
  | .done t => t.db
  | .fallthrough d => d

theorem inv_mainMenuBlock (eng : Option LLMService) (db : DB)
    (phone message : String) (pe : Bool) (price : Int)
    (hInv : Inv db) (h50 : 50 ≤ price) (h500 : price ≤ 500) :
    Inv (mmOutDB (mainMenuBlock eng db phone message pe price)) := by
  have hdb1 : Inv (if pe then
      { db with customers := (setCustomerLang db.customers phone
                               ((extract_order_details eng message).language.getD "english")) }
    else db) := by
    cases pe
    · simpa using hInv
    · simpa using inv_customers db _ hInv
  by_cases hg : (extract_order_details eng message).intent.getD "other" = "greeting"
  · simp only [mainMenuBlock]
    rw [if_pos hg]
    cases translate_response eng greetingReplyText
        (.vStr ((extract_order_details eng message).language.getD "english")) <;>
      simpa [mmOutDB, errTurn, okTurn] using hdb1
  · cases hm : (extract_order_details eng message).medicine with
    | none =>
      simp only [mainMenuBlock, hm]
      rw [if_neg hg]
      exact hdb1
    | some m =>
      by_cases hm0 : m = ""
      · subst hm0
        simp only [mainMenuBlock, hm]
        rw [if_neg hg]
        simpa [mmOutDB] using hdb1
      · by_cases hq : optIntTruthy (extract_order_details eng message).quantity = true
        · cases hqv : (extract_order_details eng message).quantity with
          | none => simp [optIntTruthy, hqv] at hq
          | some n =>
            have hq1 : optIntTruthy (some n) = true := hqv ▸ hq
            simp only [mainMenuBlock, hm, hqv]
            rw [if_neg hg, if_neg hm0, if_pos hq1]
            exact inv_builder eng _ phone _ n _ _ _ _ price hdb1 h50 h500
        · simp only [mainMenuBlock, hm]
          rw [if_neg hg, if_neg hm0, if_neg hq]
          cases translate_response eng (askQtyText m)
              (.vStr ((extract_order_details eng message).language.getD "english")) <;>
            simpa [mmOutDB, errTurn, okTurn] using
              inv_update_not_conf _ phone "awaiting_quantity" _ hdb1 (by decide)

theorem inv_fallbackBlock (db : DB) (phone message : String) (hInv : Inv db) :
    Inv (fallbackBlock db phone message).db := by
  simp only [fallbackBlock]
  split
  · split
    · exact inv_update_not_conf _ _ _ _ hInv (by decide)
    · exact inv_update_not_conf _ _ _ _ hInv (by decide)
  · exact inv_update_not_conf _ _ _ _ hInv (by decide)

/-- One turn preserves the invariant, given randint's price range. -/
theorem inv_process_message (eng : Option LLMService) (db : DB)
    (phone message : String) (price oid : Int) (now : Nat)
    (hInv : Inv db) (h50 : 50 ≤ price) (h500 : price ≤ 500) :
    Inv (process_message eng db phone message price oid now).db := by
  simp only [process_message]
  split_ifs with h1 h2 h3 h4 h5 h6 h7 h8
  · exact inv_update_not_conf _ _ _ _ hInv (by decide)
  · exact inv_update_not_conf _ _ _ _ hInv (by decide)
  · exact inv_update_not_conf _ _ _ _ hInv (by decide)
  · exact hInv
  · exact inv_update_not_conf _ _ _ _ (inv_customers db _ hInv) (by decide)
  · cases hm : mainMenuBlock eng db phone message
        (findCustomer db.customers phone).isSome price with
    | done t =>
      have := inv_mainMenuBlock eng db phone message
        (findCustomer db.customers phone).isSome price hInv h50 h500
      rw [hm] at this
      exact this
    | fallthrough db1 =>
      have := inv_mainMenuBlock eng db phone message
        (findCustomer db.customers phone).isSome price hInv h50 h500
      rw [hm] at this
      exact inv_fallbackBlock db1 phone message this
  · exact inv_builder eng db phone _ _ _ _ _ _ price hInv h50 h500
  · cases hs : sessionLookup db.sessions phone with
    | none => simp [get_state, hs] at h8
    | some rec =>
      have hrec : rec.step = "awaiting_confirmation" := by
        simpa [get_state, hs] using h8
      have hbag : ConfBag rec.data := hInv.1 phone rec hs hrec
      have hdata : (get_state db phone).data = rec.data := by simp [get_state, hs]
      rw [hdata]
      exact inv_confirmationBlock eng db phone message rec.data oid now hInv hbag
  · exact inv_fallbackBlock db phone message hInv

/-- Every reachable database satisfies the invariant. -/
theorem reachable_inv (eng : Option LLMService) (db : DB)
    (hdb : Reachable eng db) : Inv db := by
  induction hdb with
  | init => exact inv_emptyDB
  | step db phone message price oid now hdb h50 h500 ih =>
    exact inv_process_message eng db phone message price oid now ih h50 h500

/-- C4: in every database the engine can produce from an empty store, each
persisted order's total price equals the sum over its line items of unit
price times quantity, with every unit price an integer drawn inside
randint's fixed range [50, 500]; the total is never taken from upstream
input without this relationship holding. -/
theorem reachable_orders_total_correct (eng : Option LLMService) (db : DB)
    (hdb : Reachable eng db) : ∀ o ∈ db.orders, OrderTotalOK o :=
  (reachable_inv eng db hdb).2

/-- A six-turn conversation from the empty store: onboarding, an order for
Dolo, and a confirmation, with price draw 100. -/
def dbW1 : DB := (process_message none emptyDB "918000000001" "hi" 100 1111 0).db

def dbW2 : DB := (process_message none dbW1 "918000000001" "Asha" 100 1111 1).db

def dbW3 : DB := (process_message none dbW2 "918000000001" "Female" 100 1111 2).db

def dbW4 : DB := (process_message none dbW3 "918000000001" "25" 100 1111 3).db

def dbW5 : DB := (process_message none dbW4 "918000000001" "Dolo" 100 1111 4).db

def dbW6 : DB := (process_message none dbW5 "918000000001" "yes" 100 1234 5).db

theorem reachable_dbW6 : Reachable none dbW6 :=
  .step dbW5 "918000000001" "yes" 100 1234 5
    (.step dbW4 "918000000001" "Dolo" 100 1111 4
      (.step dbW3 "918000000001" "25" 100 1111 3
        (.step dbW2 "918000000001" "Female" 100 1111 2
          (.step dbW1 "918000000001" "Asha" 100 1111 1
            (.step emptyDB "918000000001" "hi" 100 1111 0 .init (by decide) (by decide))
            (by decide) (by decide))
          (by decide) (by decide))
        (by decide) (by decide))
      (by decide) (by decide))
    (by decide) (by decide)

/-- Witness for C4: the order persisted by the six-turn conversation
satisfies the total equation. -/
theorem reachable_orders_total_correct_witness :
    OrderTotalOK (dbW6.orders.get ⟨0, by decide⟩) :=
  reachable_orders_total_correct none dbW6 reachable_dbW6 _ (List.get_mem _ _ _)

end Pharmastic
